import Mathlib

/-!
# SelectEx and PopUpMenuEx (package widget)

A shallow embedding of `widget/select_ex.go` and `widget/popup_menu_ex.go`.

Conventions of the embedding

* Go interface values of type `SelectOption` are `Option SelectOption`: `none` is the nil
  interface, `some .unSelect` is `_unSelectOption{}` and `some (.real o)` is an option supplied by
  the embedding application.  Options are immutable, comparable values with pure accessors.
* Side effects that leave the widget (the `OnChanged` callback, `Refresh`, `fyne.LogError`) are
  recorded in the state, so that "is not invoked" is a statement about the state.
* Pixel geometry (`float32`) is only copied or compared with a constant, never computed with; such
  values are carried as `Int`.
-/

namespace Widget

/-! ## Options -/

/-- A real option handed to the widget by the application.  `ident` stands for the identity of the
Go value (dynamic type and value, or pointer); Go's `==` on two interface values holding real
options is equality of all three fields, so equal options have equal labels and values. -/
structure Opt where
  ident : Nat
  label : String
  value : String
deriving DecidableEq, Repr

/-- A non-nil `SelectOption` interface value: either the unexported sentinel `_unSelectOption{}`
or a real option.  The sentinel's type is unexported, so the `Options` slice, which the
application builds, holds real options only. -/
inductive SelectOption where
  | unSelect : SelectOption
  | real (o : Opt) : SelectOption
deriving DecidableEq, Repr

/-- Method `Label` of `SelectOption`: `_unSelectOption.Label` returns the empty string. -/
def SelectOption.Label : SelectOption → String
  | .unSelect => ""
  | .real o => o.label

/-- Method `Value` of `SelectOption`: `_unSelectOption.Value` returns the empty string. -/
def SelectOption.Value : SelectOption → String
  | .unSelect => ""
  | .real o => o.value

/-! ## The bound string cell -/

/-- Modelled from the spec: the external two-way string cell (`binding.String`, package
`data/binding`, not among the sources).  The cell holds a string; a read may fail; a write is
either rejected, leaving the cell as it was, or stores the written string. -/
structure Binder where
  cell : String
  getErr : Bool
  rejects : String → Bool

/-- Modelled from the spec: `binding.String.Get`, the read of the external cell. -/
def Binder.Get (b : Binder) : Except Unit String :=
  if b.getErr then .error () else .ok b.cell

/-- Modelled from the spec: `binding.String.Set`, the write into the external cell. -/
def Binder.Set (b : Binder) (v : String) : Except Unit Binder :=
  if b.rejects v then .error () else .ok { b with cell := v }

/-- A cell that accepts every write. -/
def Binder.AcceptsWrites (b : Binder) : Prop := ∀ v, b.rejects v = false

/-! ## Popup menu -/

/-- The value `fyne.MenuItem`: a label and an action.  The action is a closure in Go; here it is
the data the closure captured, interpreted by the owner of the menu. -/
structure MenuItem (α : Type) where
  Label : String
  Action : α

/-- An element of `Menu.Items`: a `*menuItem` widget (with the vertical position the layout gave
it) or a separator, which is not a `*menuItem`. -/
inductive MenuObject (α : Type) where
  | item (Item : MenuItem α) (posY : Int) : MenuObject α
  | separator : MenuObject α

/-- The state of a `PopUpMenuEx` together with the embedded `Menu` and the scroll container.
`activeItem` is the index in `Items` of the active `*menuItem`, `none` for nil. -/
structure PopUpMenuEx (α : Type) where
  Items : List (MenuObject α)
  activeItem : Option Nat
  scrollOffsetY : Int
  scrollRefreshes : Nat
  searchOn : Bool
  searchHeight : Int
  alignment : Nat
  hidden : Bool

/-- Modelled from the spec: `Menu.setMenu` (menu.go is not among the sources) builds one widget per
menu item, in order; the widgets have position zero until a layout runs. -/
def setMenu {α : Type} (items : List (MenuItem α)) : List (MenuObject α) :=
  items.map (fun it => MenuObject.item it 0)

/-- Function `NewPopUpMenuEx`: the search box is enabled when `searchHeight >= 20`. -/
def NewPopUpMenuEx {α : Type} (items : List (MenuItem α)) (searchHeight : Int) : PopUpMenuEx α :=
  let enabled : Bool := decide (searchHeight ≥ 20)
  { Items := setMenu items
    activeItem := none
    scrollOffsetY := 0
    scrollRefreshes := 0
    searchOn := enabled
    searchHeight := if enabled then searchHeight else 0
    alignment := 0
    hidden := true }

/-- Modelled from the spec: `Menu.activateItem` (menu.go is not among the sources) marks the given
item as the active (highlighted) one. -/
def activateItem {α : Type} (p : PopUpMenuEx α) (idx : Nat) : PopUpMenuEx α :=
  { p with activeItem := some idx }

/-- Function `strings.Contains` on the characters of the two strings. -/
def stringsContains (s sub : String) : Bool :=
  decide (sub.data <:+: s.data)

/-- The loop of `searchFunc` over `p.Items` from index `idx` on: the first `*menuItem` whose
lower-cased label contains `find` assigns the item's position to `p.menuScroll.Offset.Y`, calls
`p.menuScroll.Refresh()`, activates the item and returns.  The scroll container belongs to package
internal/widget, outside the sources: `scrollRefresh` is what its `Refresh` makes of the offset
just assigned (it may move it, for instance into the scrollable range), for the geometry the
container has during the call. -/
def searchLoop {α : Type} (lower : String → String) (scrollRefresh : Int → Int) (find : String)
    (p : PopUpMenuEx α) : List (MenuObject α) → Nat → PopUpMenuEx α
  | [], _ => p
  | MenuObject.separator :: rest, idx => searchLoop lower scrollRefresh find p rest (idx + 1)
  | MenuObject.item it y :: rest, idx =>
    if stringsContains (lower it.Label) find then
      let p1 := { p with scrollOffsetY := y }
      let p2 := { p1 with scrollOffsetY := scrollRefresh p1.scrollOffsetY
                          scrollRefreshes := p1.scrollRefreshes + 1 }
      activateItem p2 idx
    else searchLoop lower scrollRefresh find p rest (idx + 1)

/-- The closure `p.searchFunc` installed by `NewPopUpMenuEx`; `lower` is `strings.ToLower` and
`scrollRefresh` the effect of `p.menuScroll.Refresh()` on the offset. -/
def searchFunc {α : Type} (lower : String → String) (scrollRefresh : Int → Int)
    (p : PopUpMenuEx α) (s : String) : PopUpMenuEx α :=
  searchLoop lower scrollRefresh (lower s) p p.Items 0

/-- Method `PopUpMenuEx.Hide`: hides the overlay and the menu. -/
def PopUpMenuEx.Hide {α : Type} (p : PopUpMenuEx α) : PopUpMenuEx α :=
  { p with hidden := true }

/-- Method `PopUpMenuEx.Show`: shows the overlay and the menu. -/
def PopUpMenuEx.Show {α : Type} (p : PopUpMenuEx α) : PopUpMenuEx α :=
  { p with hidden := false }

/-- Modelled from the spec: `Menu.Dismiss` (menu.go is not among the sources) runs the `OnDismiss`
hook; `NewPopUpMenuEx` sets the hook to `func() { p.Hide() }`. -/
def PopUpMenuEx.Dismiss {α : Type} (p : PopUpMenuEx α) : PopUpMenuEx α :=
  p.Hide

/-! ## The select control -/

/-- Key names of `fyne.KeyEvent` that the two `TypedKey` methods distinguish. -/
inductive KeyName where
  | space | up | down | left | right | enter | escape
  | other (code : Nat)
deriving DecidableEq, Repr

/-- The state of a `SelectEx`.  `hasOnChanged` says whether `OnChanged` is non-nil; `changedLog`
lists the arguments of the calls of `OnChanged` so far, `refreshCount` counts the calls of
`s.Refresh()` and `errorCount` those of `fyne.LogError`. -/
structure SelectEx where
  Alignment : Nat
  Selected : Option SelectOption
  Options : List Opt
  PlaceHolder : String
  hasOnChanged : Bool
  focused : Bool
  hovered : Bool
  disabled : Bool
  popUp : Option (PopUpMenuEx Opt)
  binder : Option Binder
  searchBoxHeight : Int
  changedLog : List SelectOption
  refreshCount : Nat
  errorCount : Nat

/-- Function `NewSelectEx`; `dflt` is the constant `defaultPlaceHolder`, declared outside the sources. -/
def NewSelectEx (dflt : String) (options : List Opt) (placeHolder : String)
    (binder : Option Binder) (searchBoxHeight : Int) (changed : Bool) : SelectEx :=
  let placeHolder := if placeHolder == "" then dflt else placeHolder
  { Alignment := 0
    Selected := none
    Options := options
    PlaceHolder := placeHolder
    hasOnChanged := changed
    focused := false
    hovered := false
    disabled := false
    popUp := none
    binder := binder
    searchBoxHeight := searchBoxHeight
    changedLog := []
    refreshCount := 0
    errorCount := 0 }

/-- The call `s.Refresh()`: a repaint request to the host toolkit. -/
def SelectEx.Refresh (s : SelectEx) : SelectEx :=
  { s with refreshCount := s.refreshCount + 1 }

/-- Method `SelectEx.updateSelected`: without a bound cell nothing happens; a rejected write is
logged and the update abandoned; otherwise the selection is stored, `OnChanged` (if set) is called
with it and a repaint is requested.  The callback is taken not to re-enter the widget. -/
def SelectEx.updateSelected (s : SelectEx) (opt : SelectOption) : SelectEx :=
  match s.binder with
  | none => s
  | some b =>
    match b.Set opt.Value with
    | .error _ => { s with errorCount := s.errorCount + 1 }
    | .ok b1 =>
      let s1 := { s with binder := some b1, Selected := some opt }
      let s2 := if s1.hasOnChanged then { s1 with changedLog := s1.changedLog ++ [opt] } else s1
      s2.Refresh

/-- Method `SelectEx.ClearSelected`. -/
def SelectEx.ClearSelected (s : SelectEx) : SelectEx :=
  s.updateSelected .unSelect

/-- The loop of `SyncSelected`: the first option whose value is `val` is selected, then `break`. -/
def SelectEx.syncLoop (s : SelectEx) (val : String) : List Opt → SelectEx
  | [] => s
  | opt :: rest =>
    if opt.value == val then s.updateSelected (.real opt) else SelectEx.syncLoop s val rest

/-- Method `SelectEx.SyncSelected`. -/
def SelectEx.SyncSelected (s : SelectEx) : SelectEx :=
  match s.binder with
  | none => s
  | some b =>
    match b.Get with
    | .ok val => s.syncLoop val s.Options
    | .error _ => s

/-- The loop of `SelectedIndex` from index `i` on. -/
def selectedIndexLoop (sel : Option SelectOption) : List Opt → Int → Int
  | [], _ => -1
  | option :: rest, i =>
    if sel = some (.real option) then i else selectedIndexLoop sel rest (i + 1)

/-- Method `SelectEx.SelectedIndex`. -/
def SelectEx.SelectedIndex (s : SelectEx) : Int :=
  selectedIndexLoop s.Selected s.Options 0

/-- The loop of `SetSelected`: every option with the given label is selected in turn (there is no
`break`).  The slice ranged over is the one read at loop entry. -/
def SelectEx.setSelectedLoop (label : String) : SelectEx → List Opt → SelectEx
  | s, [] => s
  | s, option :: rest =>
    if label == option.label then
      SelectEx.setSelectedLoop label (s.updateSelected (.real option)) rest
    else SelectEx.setSelectedLoop label s rest

/-- Method `SelectEx.SetSelected`. -/
def SelectEx.SetSelected (s : SelectEx) (label : String) : SelectEx :=
  SelectEx.setSelectedLoop label s s.Options

/-- Method `SelectEx.SetSelectedIndex`. -/
def SelectEx.SetSelectedIndex (s : SelectEx) (index : Int) : SelectEx :=
  if index < 0 ∨ index ≥ (s.Options.length : Int) then s
  else
    match s.Options.get? index.toNat with
    | some opt => s.updateSelected (.real opt)
    | none => s

/-- Method `SelectEx.showPopUp`: one menu item per option, whose action captures the option; a fresh
popup replaces the popup reference and is shown. -/
def SelectEx.showPopUp (s : SelectEx) : SelectEx :=
  let items := s.Options.map (fun opt => MenuItem.mk opt.label opt)
  let p : PopUpMenuEx Opt := NewPopUpMenuEx items s.searchBoxHeight
  { s with popUp := some { p with alignment := s.Alignment }.Show }

/-- The action closure of a menu item built by `showPopUp`, with captured option `opt`:
`s.updateSelected(opt); s.popUp = nil`. -/
def SelectEx.itemAction (s : SelectEx) (opt : Opt) : SelectEx :=
  { s.updateSelected (.real opt) with popUp := none }

/-- Method `SelectEx.Tapped`. -/
def SelectEx.Tapped (s : SelectEx) : SelectEx :=
  if s.disabled then s else s.Refresh.showPopUp

/-- Method `SelectEx.TypedKey`. -/
def SelectEx.TypedKey (s : SelectEx) (key : KeyName) : SelectEx :=
  match key with
  | .space | .up | .down => s.showPopUp
  | .right =>
    let i := s.SelectedIndex + 1
    let i := if i ≥ (s.Options.length : Int) then 0 else i
    s.SetSelectedIndex i
  | .left =>
    let i := s.SelectedIndex - 1
    let i := if i < 0 then (s.Options.length : Int) - 1 else i
    s.SetSelectedIndex i
  | _ => s

/-- Method `SelectEx.FocusGained`. -/
def SelectEx.FocusGained (s : SelectEx) : SelectEx :=
  { s with focused := true }.Refresh

/-- Method `SelectEx.FocusLost`. -/
def SelectEx.FocusLost (s : SelectEx) : SelectEx :=
  { s with focused := false }.Refresh

/-- Method `SelectEx.MouseIn`. -/
def SelectEx.MouseIn (s : SelectEx) : SelectEx :=
  { s with hovered := true }.Refresh

/-- Method `SelectEx.MouseOut`. -/
def SelectEx.MouseOut (s : SelectEx) : SelectEx :=
  { s with hovered := false }.Refresh

/-- Method `SelectEx.Hide`: an open popup is hidden and the reference dropped. -/
def SelectEx.Hide (s : SelectEx) : SelectEx :=
  match s.popUp with
  | some _ => { s with popUp := none }
  | none => s

/-- Method `selectRendererEx.updateLabel`: the new widget state and the text put into the label.  The
call `s.combo.Selected.Label()` on a nil `Selected` is a nil dereference: `none`. -/
def updateLabel (dflt : String) (s : SelectEx) : Option (SelectEx × String) :=
  let s1 := if s.PlaceHolder == "" then { s with PlaceHolder := dflt } else s
  match s1.Selected with
  | none => none
  | some sel =>
    if sel.Label == "" then some (s1, s1.PlaceHolder) else some (s1, sel.Label)

/-- Method `SelectEx.CreateRenderer`: the placeholder and the selection get their defaults, then the
renderer's label is filled by `updateLabel`. -/
def SelectEx.CreateRenderer (dflt : String) (s : SelectEx) : Option (SelectEx × String) :=
  let s1 := if s.PlaceHolder == "" then { s with PlaceHolder := dflt } else s
  let s2 := if s1.Selected = none then { s1 with Selected := some .unSelect } else s1
  updateLabel dflt s2

/-- The popup of the control is dismissed (Escape key in `PopUpMenuEx.TypedKey`, or a click
outside, for which the overlay calls `p.Dismiss`). -/
def SelectEx.dismissPopUp (s : SelectEx) : SelectEx :=
  match s.popUp with
  | some p => { s with popUp := some p.Dismiss }
  | none => s

/-- Modelled from the spec: a popup item is chosen (`menuItem.Tapped`, menu_item.go is not among
the sources): the menu is dismissed and the item's action runs.  Separators and missing indices do
nothing. -/
def SelectEx.chooseItem (s : SelectEx) (idx : Nat) : SelectEx :=
  match s.popUp with
  | none => s
  | some p =>
    match p.Items.get? idx with
    | some (MenuObject.item it _) => s.dismissPopUp.itemAction it.Action
    | _ => s

/-- The operations on a `SelectEx` that users and the toolkit perform. -/
inductive Op where
  | clearSelected
  | syncSelected
  | setSelected (label : String)
  | setSelectedIndex (index : Int)
  | typedKey (key : KeyName)
  | tapped
  | chooseItem (idx : Nat)
  | dismissPopUp
  | createRenderer
  | focusGained
  | focusLost
  | mouseIn
  | mouseOut
  | hide

/-- One operation applied to a state. -/
def SelectEx.step (dflt : String) (s : SelectEx) : Op → SelectEx
  | .clearSelected => s.ClearSelected
  | .syncSelected => s.SyncSelected
  | .setSelected l => s.SetSelected l
  | .setSelectedIndex i => s.SetSelectedIndex i
  | .typedKey k => s.TypedKey k
  | .tapped => s.Tapped
  | .chooseItem i => s.chooseItem i
  | .dismissPopUp => s.dismissPopUp
  | .createRenderer =>
    match s.CreateRenderer dflt with
    | some r => r.1
    | none => s
  | .focusGained => s.FocusGained
  | .focusLost => s.FocusLost
  | .mouseIn => s.MouseIn
  | .mouseOut => s.MouseOut
  | .hide => s.Hide

/-- A sequence of operations applied from left to right. -/
def SelectEx.run (dflt : String) (s : SelectEx) (ops : List Op) : SelectEx :=
  ops.foldl (SelectEx.step dflt) s

/-- The selection invariant: `Selected` is unset, the sentinel, or an element of `Options`. -/
def SelectEx.SelectionOk (s : SelectEx) : Prop :=
  s.Selected = none ∨ s.Selected = some .unSelect ∨ ∃ o ∈ s.Options, s.Selected = some (.real o)

/-! ## Predicates used in the statements -/

/-- The control has a bound cell and the cell accepts every write. -/
def SelectEx.Accepting (s : SelectEx) : Prop :=
  ∃ b, s.binder = some b ∧ b.AcceptsWrites

/-- The string held by the bound cell, `none` when there is no cell. -/
def SelectEx.boundValue (s : SelectEx) : Option String :=
  s.binder.map Binder.cell

/-- The state `t` differs from `s` at most in the count of logged errors: the selection, the bound
cell, the record of `OnChanged` calls and the count of repaint requests are those of `s`. -/
def SelectEx.Abandoned (s t : SelectEx) : Prop :=
  t.Selected = s.Selected ∧ t.boundValue = s.boundValue ∧ t.changedLog = s.changedLog ∧
  t.refreshCount = s.refreshCount

/-- The label of a `*menuItem` contains the query case-insensitively: the lower-cased label
contains the lower-cased query.  A separator has no label. -/
def MenuObject.matchesQuery {α : Type} (lower : String → String) (q : String) :
    MenuObject α → Bool
  | .item it _ => stringsContains (lower it.Label) (lower q)
  | .separator => false

/-! ## Sample data -/

/-- The options of the spec's example: Red, Green, Blue with values r, g, b. -/
def colours : List Opt :=
  [⟨0, "Red", "r"⟩, ⟨1, "Green", "g"⟩, ⟨2, "Blue", "b"⟩]

/-- A cell holding `v` whose reads succeed and which accepts every write. -/
def openCell (v : String) : Binder :=
  { cell := v, getErr := false, rejects := fun _ => false }

/-- A cell holding `v` which rejects every write. -/
def lockedCell (v : String) : Binder :=
  { cell := v, getErr := false, rejects := fun _ => true }

/-- A control over the three colours, built by `NewSelectEx` with the change callback set, in
which the selection and the bound cell have the given values. -/
def colourSelect (sel : Option SelectOption) (binder : Option Binder) : SelectEx :=
  { NewSelectEx "(Select one)" colours "Pick a color" binder 0 true with Selected := sel }

/-- Lower-casing of the letters A to Z, the restriction of `strings.ToLower` to ASCII text. -/
def asciiLower (s : String) : String :=
  ⟨s.data.map (fun c => if 65 ≤ c.toNat ∧ c.toNat ≤ 90 then Char.ofNat (c.toNat + 32) else c)⟩

/-- A popup with the search box enabled over Red, Green, a separator and GREY, laid out at
vertical positions 0, 30, 60 and 65. -/
def samplePopUp : PopUpMenuEx Nat :=
  { (NewPopUpMenuEx [] 24 : PopUpMenuEx Nat) with
    Items := [.item ⟨"Red", 0⟩ 0, .item ⟨"Green", 1⟩ 30, .separator, .item ⟨"GREY", 2⟩ 65] }

/-- A refresh of a scroll container with a viewport of height `view` over content of height
`content`, used as sample data: the offset is 0 when the content fits, and is otherwise kept
between 0 and `content - view`. -/
def clampOffset (view content : Int) (offset : Int) : Int :=
  if content ≤ view then 0
  else max 0 (if offset + view ≥ content then content - view else offset)

/-- A list in which the first option occurs again in the last place. -/
def repeated : List Opt :=
  [⟨0, "Red", "r"⟩, ⟨1, "Green", "g"⟩, ⟨0, "Red", "r"⟩]

/-! ## Auxiliary facts -/

theorem updateSelected_ok (s : SelectEx) (opt : SelectOption) (b : Binder)
    (hb : s.binder = some b) (hr : b.rejects opt.Value = false) :
    s.updateSelected opt =
      { s with
        binder := some { b with cell := opt.Value }
        Selected := some opt
        changedLog := if s.hasOnChanged then s.changedLog ++ [opt] else s.changedLog
        refreshCount := s.refreshCount + 1 } := by
  unfold SelectEx.updateSelected
  simp only [hb, Binder.Set, hr, Bool.false_eq_true, if_false]
  cases hc : s.hasOnChanged <;> simp [SelectEx.Refresh]

theorem updateSelected_rejected (s : SelectEx) (opt : SelectOption) (b : Binder)
    (hb : s.binder = some b) (hr : b.rejects opt.Value = true) :
    s.updateSelected opt = { s with errorCount := s.errorCount + 1 } := by
  unfold SelectEx.updateSelected
  simp only [hb, Binder.Set, hr, if_true]

theorem updateSelected_unbound (s : SelectEx) (opt : SelectOption) (hb : s.binder = none) :
    s.updateSelected opt = s := by
  unfold SelectEx.updateSelected
  simp only [hb]

theorem updateSelected_accepting (s : SelectEx) (opt : SelectOption) (h : s.Accepting) :
    (s.updateSelected opt).Selected = some opt ∧
    (s.updateSelected opt).Options = s.Options ∧
    (s.updateSelected opt).boundValue = some opt.Value ∧
    (s.updateSelected opt).Accepting := by
  obtain ⟨b, hb, hacc⟩ := h
  rw [updateSelected_ok s opt b hb (hacc _)]
  exact ⟨rfl, rfl, rfl, ⟨_, rfl, hacc⟩⟩

theorem updateSelected_Options (s : SelectEx) (opt : SelectOption) :
    (s.updateSelected opt).Options = s.Options := by
  cases hb : s.binder with
  | none => rw [updateSelected_unbound s opt hb]
  | some b =>
    cases hr : b.rejects opt.Value
    · rw [updateSelected_ok s opt b hb hr]
    · rw [updateSelected_rejected s opt b hb hr]

theorem updateSelected_Selected (s : SelectEx) (opt : SelectOption) :
    (s.updateSelected opt).Selected = s.Selected ∨ (s.updateSelected opt).Selected = some opt := by
  cases hb : s.binder with
  | none => rw [updateSelected_unbound s opt hb]; exact Or.inl rfl
  | some b =>
    cases hr : b.rejects opt.Value
    · rw [updateSelected_ok s opt b hb hr]; exact Or.inr rfl
    · rw [updateSelected_rejected s opt b hb hr]; exact Or.inl rfl

theorem selectedIndexLoop_first (l : List Opt) :
    ∀ (k : Int) (i : Nat) (hi : i < l.length),
      (∀ j (hj : j < i), l[j] ≠ l[i]) →
      selectedIndexLoop (some (.real l[i])) l k = k + i := by
  induction l with
  | nil => intro k i hi; simp at hi
  | cons a rest ih =>
    intro k i hi hfirst
    cases i with
    | zero => simp [selectedIndexLoop]
    | succ n =>
      have hlt : n < rest.length := by simpa using hi
      have hne : rest[n] ≠ a := by
        have := hfirst 0 (Nat.succ_pos n)
        simpa using fun h => this h.symm
      have hrec := ih (k + 1) n hlt (by
        intro j hj
        have := hfirst (j + 1) (Nat.succ_lt_succ hj)
        simpa using this)
      simp only [List.getElem_cons_succ, selectedIndexLoop]
      rw [if_neg (by simpa using hne), hrec]
      push_cast
      ring

theorem selectedIndexLoop_unSelect (l : List Opt) (k : Int) :
    selectedIndexLoop (some .unSelect) l k = -1 := by
  induction l generalizing k with
  | nil => rfl
  | cons a rest ih => simp [selectedIndexLoop, ih]

theorem setSelectedLoop_absent (label : String) (l : List Opt) (s : SelectEx)
    (h : label ∉ l.map Opt.label) : SelectEx.setSelectedLoop label s l = s := by
  induction l generalizing s with
  | nil => rfl
  | cons a rest ih =>
    simp only [List.map_cons, List.mem_cons, not_or] at h
    simp only [SelectEx.setSelectedLoop]
    rw [if_neg (by simpa using h.1)]
    exact ih s h.2

theorem setSelectedLoop_present (o : Opt) (l : List Opt) (s : SelectEx)
    (hmem : o ∈ l) (hnd : (l.map Opt.label).Nodup) (hacc : s.Accepting) :
    (SelectEx.setSelectedLoop o.label s l).Selected = some (.real o) ∧
    (SelectEx.setSelectedLoop o.label s l).Options = s.Options ∧
    (SelectEx.setSelectedLoop o.label s l).boundValue = some o.value := by
  induction l generalizing s with
  | nil => simp at hmem
  | cons a rest ih =>
    simp only [List.map_cons, List.nodup_cons] at hnd
    simp only [SelectEx.setSelectedLoop]
    by_cases hla : o.label = a.label
    · have hoa : o = a := by
        rcases List.mem_cons.mp hmem with h | h
        · exact h
        · exact absurd (hla ▸ List.mem_map_of_mem Opt.label h) hnd.1
      subst hoa
      rw [if_pos (by simp), setSelectedLoop_absent _ _ _ hnd.1]
      obtain ⟨h1, h2, h3, _⟩ := updateSelected_accepting s (.real o) hacc
      exact ⟨h1, h2, h3⟩
    · rw [if_neg (by simpa using hla)]
      have hor : o ∈ rest := by
        rcases List.mem_cons.mp hmem with h | h
        · exact absurd (congrArg Opt.label h) hla
        · exact h
      exact ih s hor hnd.2 hacc

theorem SelectedIndex_first (s : SelectEx) (i : Nat) (hi : i < s.Options.length)
    (hsel : s.Selected = some (.real s.Options[i]))
    (hfirst : ∀ j (hj : j < i), s.Options[j] ≠ s.Options[i]) :
    s.SelectedIndex = (i : Int) := by
  unfold SelectEx.SelectedIndex
  rw [hsel, selectedIndexLoop_first s.Options 0 i hi hfirst]
  simp

theorem SetSelectedIndex_in_range (s : SelectEx) (i : Nat) (hi : i < s.Options.length) :
    s.SetSelectedIndex (i : Int) = s.updateSelected (.real s.Options[i]) := by
  unfold SelectEx.SetSelectedIndex
  have hnot : ¬ ((i : Int) < 0 ∨ (i : Int) ≥ (s.Options.length : Int)) := by omega
  rw [if_neg hnot]
  simp [List.get?_eq_get, hi]

theorem syncLoop_none (s : SelectEx) (v : String) (l : List Opt)
    (h : ∀ o ∈ l, o.value ≠ v) : SelectEx.syncLoop s v l = s := by
  induction l with
  | nil => rfl
  | cons a rest ih =>
    simp only [SelectEx.syncLoop]
    rw [if_neg (by simpa using h a (List.mem_cons_self a rest))]
    exact ih (fun o ho => h o (List.mem_cons_of_mem a ho))

theorem syncLoop_first (s : SelectEx) (v : String) (l : List Opt) :
    ∀ (i : Nat) (hi : i < l.length), l[i].value = v → (∀ j (hj : j < i), l[j].value ≠ v) →
      SelectEx.syncLoop s v l = s.updateSelected (.real l[i]) := by
  induction l with
  | nil => intro i hi; simp at hi
  | cons a rest ih =>
    intro i hi hv hfirst
    cases i with
    | zero =>
      simp only [SelectEx.syncLoop]
      rw [if_pos (by simpa using hv)]
      rfl
    | succ n =>
      have hlt : n < rest.length := by simpa using hi
      have ha : a.value ≠ v := by simpa using hfirst 0 (Nat.succ_pos n)
      simp only [SelectEx.syncLoop]
      rw [if_neg (by simpa using ha)]
      exact ih n hlt (by simpa using hv) (by
        intro j hj
        simpa using hfirst (j + 1) (Nat.succ_lt_succ hj))

theorem Abandoned_refl (s : SelectEx) : s.Abandoned s := ⟨rfl, rfl, rfl, rfl⟩

theorem Abandoned_trans {s t u : SelectEx} (h1 : s.Abandoned t) (h2 : t.Abandoned u) :
    s.Abandoned u :=
  ⟨h2.1.trans h1.1, h2.2.1.trans h1.2.1, h2.2.2.1.trans h1.2.2.1, h2.2.2.2.trans h1.2.2.2⟩

theorem updateSelected_abandoned (s : SelectEx) (opt : SelectOption) (b : Binder)
    (hb : s.binder = some b) (hr : b.rejects opt.Value = true) :
    s.Abandoned (s.updateSelected opt) ∧ (s.updateSelected opt).binder = some b := by
  rw [updateSelected_rejected s opt b hb hr]
  exact ⟨⟨rfl, rfl, rfl, rfl⟩, hb⟩

theorem setSelectedLoop_abandoned (label : String) (b : Binder) (hrej : ∀ v, b.rejects v = true)
    (l : List Opt) (s : SelectEx) (hb : s.binder = some b) :
    s.Abandoned (SelectEx.setSelectedLoop label s l) := by
  induction l generalizing s with
  | nil => exact Abandoned_refl s
  | cons a rest ih =>
    simp only [SelectEx.setSelectedLoop]
    split
    · obtain ⟨h1, h2⟩ := updateSelected_abandoned s (.real a) b hb (hrej _)
      exact Abandoned_trans h1 (ih _ h2)
    · exact ih s hb

theorem syncLoop_abandoned (v : String) (b : Binder) (hrej : ∀ v, b.rejects v = true)
    (l : List Opt) (s : SelectEx) (hb : s.binder = some b) :
    s.Abandoned (SelectEx.syncLoop s v l) := by
  induction l with
  | nil => exact Abandoned_refl s
  | cons a rest ih =>
    simp only [SelectEx.syncLoop]
    split
    · exact (updateSelected_abandoned s (.real a) b hb (hrej _)).1
    · exact ih

theorem searchLoop_none {α : Type} (lower : String → String) (scrollRefresh : Int → Int)
    (q : String) (p : PopUpMenuEx α) (l : List (MenuObject α)) (k : Nat)
    (h : ∀ o ∈ l, o.matchesQuery lower q = false) :
    searchLoop lower scrollRefresh (lower q) p l k = p := by
  induction l generalizing k with
  | nil => rfl
  | cons a rest ih =>
    have hrest := fun o ho => h o (List.mem_cons_of_mem a ho)
    cases a with
    | separator => exact ih (k + 1) hrest
    | item it y =>
      have ha : stringsContains (lower it.Label) (lower q) = false :=
        h _ (List.mem_cons_self _ rest)
      simp only [searchLoop, ha, Bool.false_eq_true, if_false]
      exact ih (k + 1) hrest

theorem searchLoop_first {α : Type} (lower : String → String) (scrollRefresh : Int → Int)
    (q : String) (p : PopUpMenuEx α) (l : List (MenuObject α)) :
    ∀ (k i : Nat) (hi : i < l.length) (it : MenuItem α) (y : Int),
      l[i] = MenuObject.item it y → stringsContains (lower it.Label) (lower q) = true →
      (∀ j (hj : j < i), l[j].matchesQuery lower q = false) →
      searchLoop lower scrollRefresh (lower q) p l k =
        { p with
          activeItem := some (k + i)
          scrollOffsetY := scrollRefresh y
          scrollRefreshes := p.scrollRefreshes + 1 } := by
  induction l with
  | nil => intro k i hi; simp at hi
  | cons a rest ih =>
    intro k i hi it y hit hm hfirst
    cases i with
    | zero =>
      simp only [List.getElem_cons_zero] at hit
      subst hit
      simp only [searchLoop, hm, if_true]
      rfl
    | succ n =>
      have hlt : n < rest.length := by simpa using hi
      have ha : a.matchesQuery lower q = false := by simpa using hfirst 0 (Nat.succ_pos n)
      have hrec := ih (k + 1) n hlt it y (by simpa using hit) hm (by
        intro j hj
        simpa using hfirst (j + 1) (Nat.succ_lt_succ hj))
      have hidx : k + 1 + n = k + (n + 1) := by omega
      cases a with
      | separator =>
        simp only [searchLoop]
        rw [hrec, hidx]
      | item it2 y2 =>
        have ha2 : stringsContains (lower it2.Label) (lower q) = false := ha
        simp only [searchLoop, ha2, Bool.false_eq_true, if_false]
        rw [hrec, hidx]

theorem updateSelected_SelectionOk (s : SelectEx) (opt : SelectOption) (h : s.SelectionOk)
    (hopt : opt = .unSelect ∨ ∃ o ∈ s.Options, opt = .real o) :
    (s.updateSelected opt).SelectionOk := by
  unfold SelectEx.SelectionOk
  rw [updateSelected_Options]
  rcases updateSelected_Selected s opt with hs | hs
  · rw [hs]; exact h
  · rw [hs]
    rcases hopt with rfl | ⟨o, ho, rfl⟩
    · exact Or.inr (Or.inl rfl)
    · exact Or.inr (Or.inr ⟨o, ho, rfl⟩)

theorem setSelectedLoop_SelectionOk (label : String) (l : List Opt) (s : SelectEx)
    (h : s.SelectionOk) (hl : ∀ o ∈ l, o ∈ s.Options) :
    (SelectEx.setSelectedLoop label s l).SelectionOk := by
  induction l generalizing s with
  | nil => exact h
  | cons a rest ih =>
    have ha : a ∈ s.Options := hl a (List.mem_cons_self a rest)
    have hrest : ∀ o ∈ rest, o ∈ s.Options := fun o ho => hl o (List.mem_cons_of_mem a ho)
    simp only [SelectEx.setSelectedLoop]
    split
    · apply ih
      · exact updateSelected_SelectionOk s _ h (Or.inr ⟨a, ha, rfl⟩)
      · rw [updateSelected_Options]; exact hrest
    · exact ih s h hrest

theorem syncLoop_SelectionOk (v : String) (l : List Opt) (s : SelectEx)
    (h : s.SelectionOk) (hl : ∀ o ∈ l, o ∈ s.Options) :
    (SelectEx.syncLoop s v l).SelectionOk := by
  induction l with
  | nil => exact h
  | cons a rest ih =>
    simp only [SelectEx.syncLoop]
    split
    · exact updateSelected_SelectionOk s _ h (Or.inr ⟨a, hl a (List.mem_cons_self a rest), rfl⟩)
    · exact ih (fun o ho => hl o (List.mem_cons_of_mem a ho))

theorem SetSelectedIndex_SelectionOk (s : SelectEx) (index : Int) (h : s.SelectionOk) :
    (s.SetSelectedIndex index).SelectionOk := by
  unfold SelectEx.SetSelectedIndex
  split
  · exact h
  · split
    · rename_i opt hopt
      exact updateSelected_SelectionOk s _ h (Or.inr ⟨opt, List.get?_mem hopt, rfl⟩)
    · exact h

theorem updateSelected_isSome (s : SelectEx) (opt : SelectOption)
    (h : s.Selected.isSome = true) : (s.updateSelected opt).Selected.isSome = true := by
  rcases updateSelected_Selected s opt with hs | hs
  · rw [hs]; exact h
  · rw [hs]; rfl

theorem setSelectedLoop_isSome (label : String) (l : List Opt) (s : SelectEx)
    (h : s.Selected.isSome = true) :
    (SelectEx.setSelectedLoop label s l).Selected.isSome = true := by
  induction l generalizing s with
  | nil => exact h
  | cons a rest ih =>
    simp only [SelectEx.setSelectedLoop]
    split
    · exact ih _ (updateSelected_isSome s _ h)
    · exact ih s h

theorem syncLoop_isSome (v : String) (l : List Opt) (s : SelectEx)
    (h : s.Selected.isSome = true) : (SelectEx.syncLoop s v l).Selected.isSome = true := by
  induction l with
  | nil => exact h
  | cons a rest ih =>
    simp only [SelectEx.syncLoop]
    split
    · exact updateSelected_isSome s _ h
    · exact ih

theorem SetSelectedIndex_isSome (s : SelectEx) (index : Int) (h : s.Selected.isSome = true) :
    (s.SetSelectedIndex index).Selected.isSome = true := by
  unfold SelectEx.SetSelectedIndex
  split
  · exact h
  · split
    · exact updateSelected_isSome s _ h
    · exact h

theorem CreateRenderer_total (dflt : String) (s : SelectEx) :
    ∃ r, s.CreateRenderer dflt = some r ∧ r.1.Selected.isSome = true ∧
      r.1.Selected = some (s.Selected.getD .unSelect) := by
  unfold SelectEx.CreateRenderer updateLabel
  cases hsel : s.Selected with
  | none =>
    by_cases hp : (s.PlaceHolder == "") = true <;>
      simp [hp, hsel, SelectOption.Label]
  | some sel =>
    by_cases hp : (s.PlaceHolder == "") = true <;> by_cases hl : (sel.Label == "") = true <;>
      simp [hp, hsel, hl]

theorem step_isSome (dflt : String) (s : SelectEx) (op : Op) (h : s.Selected.isSome = true) :
    (s.step dflt op).Selected.isSome = true := by
  cases op with
  | clearSelected => exact updateSelected_isSome s _ h
  | syncSelected =>
    simp only [SelectEx.step, SelectEx.SyncSelected]
    split
    · exact h
    · split
      · exact syncLoop_isSome _ _ s h
      · exact h
  | setSelected l => exact setSelectedLoop_isSome l s.Options s h
  | setSelectedIndex i => exact SetSelectedIndex_isSome s i h
  | typedKey k =>
    cases k <;> first
      | exact h
      | exact SetSelectedIndex_isSome s _ h
  | tapped =>
    simp only [SelectEx.step, SelectEx.Tapped]
    split <;> exact h
  | chooseItem i =>
    simp only [SelectEx.step, SelectEx.chooseItem]
    split
    · exact h
    · split
      · have hd : s.dismissPopUp.Selected.isSome = true := by
          unfold SelectEx.dismissPopUp
          split <;> exact h
        exact updateSelected_isSome _ _ hd
      · exact h
  | dismissPopUp =>
    simp only [SelectEx.step, SelectEx.dismissPopUp]
    split <;> exact h
  | createRenderer =>
    obtain ⟨r, hr, hsome, _⟩ := CreateRenderer_total dflt s
    simp only [SelectEx.step, hr]
    exact hsome
  | focusGained => exact h
  | focusLost => exact h
  | mouseIn => exact h
  | mouseOut => exact h
  | hide =>
    simp only [SelectEx.step, SelectEx.Hide]
    split <;> exact h

theorem run_isSome (dflt : String) (ops : List Op) (s : SelectEx)
    (h : s.Selected.isSome = true) : (s.run dflt ops).Selected.isSome = true := by
  induction ops generalizing s with
  | nil => exact h
  | cons op rest ih => exact ih _ (step_isSome dflt s op h)

/-! ## C1: SetSelected -/

/-- C1 (as stated, refuted): on the options Red, Green, Blue, whose labels are pairwise distinct,
`SetSelected("Green")` leaves a fresh control without a selection, so that `SelectedIndex()` is -1
and not 1, both when the control has no bound cell and when its bound cell rejects the write; in
the latter case the cell still holds its old string and not g. -/
theorem C1_counterexample_unbound :
    (colours.map Opt.label).Nodup ∧
    ((NewSelectEx "(Select one)" colours "Pick a color" none 0 false).SetSelected
      "Green").SelectedIndex = -1 ∧
    ((NewSelectEx "(Select one)" colours "Pick a color" none 0 false).SetSelected
      "Green").SelectedIndex ≠ 1 ∧
    ((NewSelectEx "(Select one)" colours "Pick a color" (some (lockedCell "x")) 0
      false).SetSelected "Green").SelectedIndex = -1 ∧
    ((NewSelectEx "(Select one)" colours "Pick a color" (some (lockedCell "x")) 0
      false).SetSelected "Green").boundValue = some "x" := by
  decide

/-- C1 (amended): when the control has a bound cell that accepts writes, the option labels are
pairwise distinct and `i` is an index into `Options`, then after
`SetSelected(Options[i].Label())` the call `SelectedIndex()` returns `i` and the bound cell holds
`Options[i].Value()`. -/
theorem C1_SetSelected_bound (s : SelectEx) (i : Nat) (hi : i < s.Options.length)
    (hacc : s.Accepting) (hnd : (s.Options.map Opt.label).Nodup) :
    (s.SetSelected s.Options[i].label).SelectedIndex = (i : Int) ∧
    (s.SetSelected s.Options[i].label).boundValue = some s.Options[i].value := by
  obtain ⟨h1, h2, h3⟩ :=
    setSelectedLoop_present s.Options[i] s.Options s (List.getElem_mem hi) hnd hacc
  refine ⟨?_, h3⟩
  have hnd2 : s.Options.Nodup := List.Nodup.of_map _ hnd
  have hfirst : ∀ j (hj : j < i), s.Options[j] ≠ s.Options[i] := by
    intro j hj heq
    have := (List.Nodup.getElem_inj_iff hnd2).mp heq
    omega
  have := selectedIndexLoop_first s.Options 0 i hi hfirst
  unfold SelectEx.SelectedIndex SelectEx.SetSelected
  rw [h1, h2, this]
  simp

/-- C1 (amended), at the spec's example: after `SetSelected("Green")` on a control bound to an
accepting cell, `SelectedIndex()` is 1 and the cell holds g. -/
theorem C1_SetSelected_bound_witness :
    ((NewSelectEx "(Select one)" colours "Pick a color" (some (openCell "")) 0
        true).SetSelected "Green").SelectedIndex = 1 ∧
    ((NewSelectEx "(Select one)" colours "Pick a color" (some (openCell "")) 0
        true).SetSelected "Green").boundValue = some "g" :=
  C1_SetSelected_bound
    (NewSelectEx "(Select one)" colours "Pick a color" (some (openCell "")) 0 true) 1
    (by decide) ⟨openCell "", rfl, fun _ => rfl⟩ (by decide)

/-! ## C2: SetSelectedIndex out of range -/

/-- C2: for an index below 0 or not below `len(Options)`, `SetSelectedIndex` returns the state it
was given: `Selected`, the bound cell and the record of `OnChanged` calls are as before. -/
theorem C2_SetSelectedIndex_out_of_range (s : SelectEx) (index : Int)
    (h : index < 0 ∨ index ≥ (s.Options.length : Int)) :
    s.SetSelectedIndex index = s ∧
    (s.SetSelectedIndex index).Selected = s.Selected ∧
    (s.SetSelectedIndex index).boundValue = s.boundValue ∧
    (s.SetSelectedIndex index).changedLog = s.changedLog := by
  have : s.SetSelectedIndex index = s := by
    unfold SelectEx.SetSelectedIndex
    rw [if_pos h]
  rw [this]
  exact ⟨rfl, rfl, rfl, rfl⟩

/-- C2, at an example: index 3 on the three colours changes nothing. -/
theorem C2_SetSelectedIndex_out_of_range_witness :
    ((3 : Int) < 0 ∨ (3 : Int) ≥
        (((NewSelectEx "(Select one)" colours "" (some (openCell "")) 0 true).Options.length :
          Nat) : Int)) ∧
    ((NewSelectEx "(Select one)" colours "" (some (openCell "")) 0 true).SetSelectedIndex
        3).Selected = none :=
  ⟨by decide,
   (C2_SetSelectedIndex_out_of_range
      (NewSelectEx "(Select one)" colours "" (some (openCell "")) 0 true) 3 (by decide)).2.1⟩

/-! ## C3: cycling with the arrow keys -/

/-- C3 (as stated, refuted): in the list Red, Green, Red (the same option first and last) with an
accepting cell, the option at the last index is selected and it is also the option at index 0;
the right-arrow key leads to index 1, not 0, and the left-arrow key leads to index 0, not 2. -/
theorem C3_counterexample_repeated_option :
    ((NewSelectEx "(Select one)" repeated "" (some (openCell "")) 0 false).SetSelectedIndex
        2).Selected = repeated.getLast?.map SelectOption.real ∧
    ((NewSelectEx "(Select one)" repeated "" (some (openCell "")) 0 false).SetSelectedIndex
        2).Selected = repeated.head?.map SelectOption.real ∧
    (((NewSelectEx "(Select one)" repeated "" (some (openCell "")) 0 false).SetSelectedIndex
        2).TypedKey .right).SelectedIndex = 1 ∧
    (((NewSelectEx "(Select one)" repeated "" (some (openCell "")) 0 false).SetSelectedIndex
        2).TypedKey .left).SelectedIndex = 0 := by
  decide

/-- C3 (amended): for a non-empty `Options` list whose last option does not also occur at an
earlier index, and a bound cell that accepts writes: the right-arrow key while the last option is
selected gives `SelectedIndex() == 0`, and the left-arrow key while the option at index 0 is
selected gives `SelectedIndex() == len(Options)-1`. -/
theorem C3_TypedKey_wraps (s : SelectEx) (hne : s.Options ≠ []) (hacc : s.Accepting)
    (hlast : ∀ j, j + 1 < s.Options.length → s.Options.get? j ≠ s.Options.getLast?) :
    (s.Selected = s.Options.getLast?.map SelectOption.real →
      (s.TypedKey .right).SelectedIndex = 0) ∧
    (s.Selected = s.Options.head?.map SelectOption.real →
      (s.TypedKey .left).SelectedIndex = (s.Options.length : Int) - 1) := by
  have hpos : 0 < s.Options.length := List.length_pos.mpr hne
  have hn : s.Options.length - 1 < s.Options.length := by omega
  have hgl : s.Options.getLast? = some s.Options[s.Options.length - 1] := by
    rw [List.getLast?_eq_getElem?, List.getElem?_eq_getElem hn]
  have hhd : s.Options.head? = some s.Options[0] := by
    rw [List.head?_eq_getElem?, List.getElem?_eq_getElem hpos]
  have hfirstLast : ∀ j (hj : j < s.Options.length - 1),
      s.Options[j] ≠ s.Options[s.Options.length - 1] := by
    intro j hj heq
    have hj2 : j < s.Options.length := by omega
    apply hlast j (by omega)
    rw [hgl, List.get?_eq_getElem?, List.getElem?_eq_getElem hj2, heq]
  constructor
  · intro hsel
    rw [hgl] at hsel
    have hidx := SelectedIndex_first s _ hn hsel hfirstLast
    have hkey : s.TypedKey .right = s.SetSelectedIndex ((0 : Nat) : Int) := by
      simp only [SelectEx.TypedKey, hidx]
      rw [if_pos (by omega)]
      rfl
    rw [hkey, SetSelectedIndex_in_range s 0 hpos]
    obtain ⟨h1, h2, _, _⟩ := updateSelected_accepting s (.real s.Options[0]) hacc
    have := SelectedIndex_first (s.updateSelected (.real s.Options[0])) 0 (by rw [h2]; exact hpos)
      (by rw [h1]; simp only [h2]) (by intro j hj; omega)
    simpa using this
  · intro hsel
    rw [hhd] at hsel
    have hidx := SelectedIndex_first s 0 hpos hsel (by intro j hj; omega)
    have hkey : s.TypedKey .left = s.SetSelectedIndex ((s.Options.length - 1 : Nat) : Int) := by
      simp only [SelectEx.TypedKey, hidx]
      rw [if_pos (by omega)]
      congr 1
      omega
    rw [hkey, SetSelectedIndex_in_range s _ hn]
    obtain ⟨h1, h2, _, _⟩ :=
      updateSelected_accepting s (.real s.Options[s.Options.length - 1]) hacc
    have := SelectedIndex_first (s.updateSelected (.real s.Options[s.Options.length - 1]))
      (s.Options.length - 1) (by rw [h2]; exact hn)
      (by rw [h1]; simp only [h2]) (by simp only [h2]; exact hfirstLast)
    rw [this]
    omega

/-- C3 (amended), at the three colours: from Blue the right arrow gives index 0, and from Red the
left arrow gives index 2. -/
theorem C3_TypedKey_wraps_witness :
    (((colourSelect (some (.real ⟨2, "Blue", "b"⟩)) (some (openCell "b"))).TypedKey
        .right).SelectedIndex = 0) ∧
    (((colourSelect (some (.real ⟨0, "Red", "r"⟩)) (some (openCell "r"))).TypedKey
        .left).SelectedIndex = 2) :=
  ⟨(C3_TypedKey_wraps (colourSelect (some (.real ⟨2, "Blue", "b"⟩)) (some (openCell "b")))
      (by decide) ⟨openCell "b", rfl, fun _ => rfl⟩
      (by
        intro j hj
        have hj2 : j < 2 := by
          have : (colourSelect (some (.real ⟨2, "Blue", "b"⟩))
            (some (openCell "b"))).Options.length = 3 := rfl
          omega
        interval_cases j <;> decide)).1 rfl,
   (C3_TypedKey_wraps (colourSelect (some (.real ⟨0, "Red", "r"⟩)) (some (openCell "r")))
      (by decide) ⟨openCell "r", rfl, fun _ => rfl⟩
      (by
        intro j hj
        have hj2 : j < 2 := by
          have : (colourSelect (some (.real ⟨0, "Red", "r"⟩))
            (some (openCell "r"))).Options.length = 3 := rfl
          omega
        interval_cases j <;> decide)).2 rfl⟩

/-! ## C4: ClearSelected -/

/-- C4: for a control bound to a cell that accepts writes, in any selection state, after
`ClearSelected()` the renderer's `updateLabel` succeeds and the text it puts into the label is the
control's `PlaceHolder` (the default placeholder if the field was empty), and `SelectedIndex()`
returns -1. -/
theorem C4_ClearSelected_shows_placeholder (dflt : String) (s : SelectEx) (hacc : s.Accepting) :
    s.ClearSelected.SelectedIndex = -1 ∧
    ∃ s1, updateLabel dflt s.ClearSelected = some (s1, s1.PlaceHolder) ∧
      s1.PlaceHolder = (if s.PlaceHolder == "" then dflt else s.PlaceHolder) := by
  obtain ⟨b, hb, hw⟩ := hacc
  have hclr := updateSelected_ok s .unSelect b hb (hw _)
  unfold SelectEx.ClearSelected
  rw [hclr]
  constructor
  · exact selectedIndexLoop_unSelect _ _
  · unfold updateLabel
    by_cases hp : s.PlaceHolder = ""
    · simp only [hp, beq_self_eq_true, if_true, SelectOption.Label]
      exact ⟨_, rfl, rfl⟩
    · have hq : (s.PlaceHolder == "") = false := by simpa using hp
      simp only [hq, Bool.false_eq_true, if_false, SelectOption.Label, beq_self_eq_true, if_true]
      exact ⟨_, rfl, rfl⟩

/-- C4, at an example: with Green selected and the placeholder "Pick a color", clearing shows
"Pick a color" and the index is -1. -/
theorem C4_ClearSelected_shows_placeholder_witness :
    (colourSelect (some (.real ⟨1, "Green", "g"⟩)) (some (openCell "g"))).ClearSelected.SelectedIndex
      = -1 ∧
    ∃ s1, updateLabel "(Select one)"
        (colourSelect (some (.real ⟨1, "Green", "g"⟩)) (some (openCell "g"))).ClearSelected
        = some (s1, s1.PlaceHolder) ∧
      s1.PlaceHolder = "Pick a color" :=
  C4_ClearSelected_shows_placeholder "(Select one)"
    (colourSelect (some (.real ⟨1, "Green", "g"⟩)) (some (openCell "g")))
    ⟨openCell "g", rfl, fun _ => rfl⟩

/-! ## C5: SyncSelected -/

/-- C5: for a control bound to a cell whose read succeeds with `v` and which accepts writes: if
`Options[i]` is the first option in list order with `Value() == v`, then after `SyncSelected()`
the selected option is `Options[i]`; if no option has `Value() == v`, `SyncSelected()` returns the
state unchanged (selection, bound cell, record of `OnChanged` calls). -/
theorem C5_SyncSelected (s : SelectEx) (b : Binder) (v : String)
    (hb : s.binder = some b) (hget : b.Get = .ok v) (hacc : b.AcceptsWrites) :
    (∀ (i : Nat) (hi : i < s.Options.length), s.Options[i].value = v →
      (∀ j (hj : j < i), s.Options[j].value ≠ v) →
      s.SyncSelected.Selected = some (.real s.Options[i])) ∧
    ((∀ o ∈ s.Options, o.value ≠ v) →
      s.SyncSelected = s ∧ s.SyncSelected.Selected = s.Selected ∧
      s.SyncSelected.boundValue = s.boundValue ∧ s.SyncSelected.changedLog = s.changedLog) := by
  have hsync : s.SyncSelected = s.syncLoop v s.Options := by
    unfold SelectEx.SyncSelected
    simp only [hb, hget]
  constructor
  · intro i hi hv hfirst
    rw [hsync, syncLoop_first s v s.Options i hi hv hfirst]
    exact (updateSelected_accepting s _ ⟨b, hb, hacc⟩).1
  · intro hnone
    have : s.SyncSelected = s := by rw [hsync, syncLoop_none s v s.Options hnone]
    rw [this]
    exact ⟨rfl, rfl, rfl, rfl⟩

/-- C5, at an example: the cell holds g, so synchronising selects Green. -/
theorem C5_SyncSelected_witness :
    (colourSelect none (some (openCell "g"))).SyncSelected.Selected
      = some (.real ⟨1, "Green", "g"⟩) :=
  (C5_SyncSelected (colourSelect none (some (openCell "g"))) (openCell "g") "g" rfl rfl
    (fun _ => rfl)).1 1 (by decide) (by decide)
    (by
      intro j hj
      have hj0 : j = 0 := by omega
      subst hj0
      exact (by decide : ("r" : String) ≠ "g"))

/-! ## C6: a rejected write -/

/-- C6: when the bound cell rejects the write of `opt.Value()`, `updateSelected(opt)` abandons the
update: `Selected` and the cell are unchanged, `OnChanged` is not invoked and no `Refresh` is
requested.  When the cell rejects every write, the same holds for `SetSelected`,
`SetSelectedIndex`, `ClearSelected`, `SyncSelected` and the action of a popup item. -/
theorem C6_rejected_write_abandons (s : SelectEx) (b : Binder) (hb : s.binder = some b) :
    (∀ opt, b.rejects opt.Value = true → s.Abandoned (s.updateSelected opt)) ∧
    ((∀ v, b.rejects v = true) →
      (∀ label, s.Abandoned (s.SetSelected label)) ∧
      (∀ index, s.Abandoned (s.SetSelectedIndex index)) ∧
      s.Abandoned s.ClearSelected ∧
      s.Abandoned s.SyncSelected ∧
      (∀ opt, s.Abandoned (s.itemAction opt))) := by
  refine ⟨fun opt hr => (updateSelected_abandoned s opt b hb hr).1, fun hrej => ?_⟩
  refine ⟨?_, ?_, ?_, ?_, ?_⟩
  · intro label
    exact setSelectedLoop_abandoned label b hrej s.Options s hb
  · intro index
    unfold SelectEx.SetSelectedIndex
    split
    · exact Abandoned_refl s
    · split
      · exact (updateSelected_abandoned s _ b hb (hrej _)).1
      · exact Abandoned_refl s
  · exact (updateSelected_abandoned s _ b hb (hrej _)).1
  · unfold SelectEx.SyncSelected
    simp only [hb]
    split
    · exact syncLoop_abandoned _ b hrej s.Options s hb
    · exact Abandoned_refl s
  · intro opt
    obtain ⟨h1, h2, h3, h4⟩ := (updateSelected_abandoned s (.real opt) b hb (hrej _)).1
    exact ⟨h1, h2, h3, h4⟩

/-- C6, at an example: with a cell that rejects every write, selecting Green by label leaves the
control without a selection, without a callback and without a repaint request. -/
theorem C6_rejected_write_abandons_witness :
    ((colourSelect none (some (lockedCell "x"))).SetSelected "Green").Selected = none ∧
    ((colourSelect none (some (lockedCell "x"))).SetSelected "Green").changedLog = [] ∧
    ((colourSelect none (some (lockedCell "x"))).SetSelected "Green").refreshCount = 0 :=
  have h := ((C6_rejected_write_abandons (colourSelect none (some (lockedCell "x")))
    (lockedCell "x") rfl).2 (fun _ => rfl)).1 "Green"
  ⟨h.1, h.2.2.1, h.2.2.2⟩

/-! ## C7: the search function of the popup -/

/-- C7: for every item list and query, `searchFunc` activates the first `*menuItem`, in list
order, whose label contains the query case-insensitively, and scrolls to it: the item's position
is assigned to the scroll offset and the scroll container refreshed once, so that the offset is
what that refresh makes of the item's position.  The active item is that item and no other, and
the items are as before.  If no item matches, the popup (active item and scroll offset included,
no refresh) is unchanged. -/
theorem C7_searchFunc_first_match {α : Type} (lower : String → String)
    (scrollRefresh : Int → Int) (p : PopUpMenuEx α) (q : String) :
    (∀ (i : Nat) (hi : i < p.Items.length) (it : MenuItem α) (y : Int),
      p.Items[i] = MenuObject.item it y →
      stringsContains (lower it.Label) (lower q) = true →
      (∀ j (hj : j < i), p.Items[j].matchesQuery lower q = false) →
      (searchFunc lower scrollRefresh p q).activeItem = some i ∧
      (searchFunc lower scrollRefresh p q).scrollOffsetY = scrollRefresh y ∧
      (searchFunc lower scrollRefresh p q).scrollRefreshes = p.scrollRefreshes + 1 ∧
      (searchFunc lower scrollRefresh p q).Items = p.Items) ∧
    ((∀ o ∈ p.Items, o.matchesQuery lower q = false) →
      searchFunc lower scrollRefresh p q = p ∧
      (searchFunc lower scrollRefresh p q).activeItem = p.activeItem ∧
      (searchFunc lower scrollRefresh p q).scrollOffsetY = p.scrollOffsetY) := by
  constructor
  · intro i hi it y hit hm hfirst
    unfold searchFunc
    rw [searchLoop_first lower scrollRefresh q p p.Items 0 i hi it y hit hm hfirst]
    simp
  · intro hnone
    have : searchFunc lower scrollRefresh p q = p :=
      searchLoop_none lower scrollRefresh q p p.Items 0 hnone
    rw [this]
    exact ⟨rfl, rfl, rfl⟩

/-- C7, at an example: in Red, Green, separator, GREY, laid out at 0, 30, 60 and 65 inside a
scroll container of height 60 over content of height 95, the query "eY" activates GREY (index 3);
its position 65 is assigned and the refresh brings the offset to 35.  The query "x" changes
nothing. -/
theorem C7_searchFunc_first_match_witness :
    ((searchFunc asciiLower (clampOffset 60 95) samplePopUp "eY").activeItem = some 3 ∧
      (searchFunc asciiLower (clampOffset 60 95) samplePopUp "eY").scrollOffsetY = 35 ∧
      (searchFunc asciiLower (clampOffset 60 95) samplePopUp "eY").scrollRefreshes = 1 ∧
      (searchFunc asciiLower (clampOffset 60 95) samplePopUp "eY").Items = samplePopUp.Items) ∧
    (searchFunc asciiLower (clampOffset 60 95) samplePopUp "x").activeItem = none :=
  ⟨(C7_searchFunc_first_match asciiLower (clampOffset 60 95) samplePopUp "eY").1 3 (by decide)
      ⟨"GREY", 2⟩ 65 rfl (by decide)
      (by
        intro j hj
        have hj3 : j = 0 ∨ j = 1 ∨ j = 2 := by omega
        rcases hj3 with rfl | rfl | rfl
        · exact (by decide :
            MenuObject.matchesQuery asciiLower "eY"
              (MenuObject.item (⟨"Red", 0⟩ : MenuItem Nat) 0) = false)
        · exact (by decide :
            MenuObject.matchesQuery asciiLower "eY"
              (MenuObject.item (⟨"Green", 1⟩ : MenuItem Nat) 30) = false)
        · exact (by decide :
            MenuObject.matchesQuery asciiLower "eY"
              (MenuObject.separator : MenuObject Nat) = false)),
   ((C7_searchFunc_first_match asciiLower (clampOffset 60 95) samplePopUp "x").2
      (by decide)).2.1.trans rfl⟩

/-! ## C8: the popup reference -/

/-- C8 (evaluation of the code): on the three colours, after `showPopUp` the popup reference is
set; choosing the item Green clears it, but dismissing the popup only hides the popup and the
control still refers to it. -/
theorem C8_dismiss_keeps_popup_reference :
    (colourSelect none (some (openCell ""))).showPopUp.popUp.isSome = true ∧
    ((colourSelect none (some (openCell ""))).showPopUp.chooseItem 1).popUp.isSome = false ∧
    (colourSelect none (some (openCell ""))).showPopUp.dismissPopUp.popUp.isSome = true ∧
    (colourSelect none (some (openCell ""))).showPopUp.dismissPopUp.popUp.map PopUpMenuEx.hidden
      = some true := by
  decide

/-! ## C9: the selection invariant -/

/-- C9: if `Selected` is unset, the sentinel or an element of `Options`, then the same holds after
`ClearSelected`, `SyncSelected`, `SetSelected`, `SetSelectedIndex`, `TypedKey` with any key, and
after the action of any item of the popup that `showPopUp` builds from the current `Options`. -/
theorem C9_selection_invariant (s : SelectEx) (h : s.SelectionOk) :
    s.ClearSelected.SelectionOk ∧
    s.SyncSelected.SelectionOk ∧
    (∀ label, (s.SetSelected label).SelectionOk) ∧
    (∀ index, (s.SetSelectedIndex index).SelectionOk) ∧
    (∀ key, (s.TypedKey key).SelectionOk) ∧
    (∀ p it y, s.showPopUp.popUp = some p → MenuObject.item it y ∈ p.Items →
      (s.itemAction it.Action).SelectionOk) := by
  refine ⟨?_, ?_, ?_, ?_, ?_, ?_⟩
  · exact updateSelected_SelectionOk s _ h (Or.inl rfl)
  · unfold SelectEx.SyncSelected
    split
    · exact h
    · split
      · exact syncLoop_SelectionOk _ _ s h (fun _ ho => ho)
      · exact h
  · intro label
    exact setSelectedLoop_SelectionOk label s.Options s h (fun _ ho => ho)
  · intro index
    exact SetSelectedIndex_SelectionOk s index h
  · intro key
    cases key <;> first
      | exact h
      | exact SetSelectedIndex_SelectionOk s _ h
  · intro p it y hp hmem
    have hp2 : p.Items = s.Options.map (fun opt => MenuObject.item ⟨opt.label, opt⟩ 0) := by
      simp only [SelectEx.showPopUp, NewPopUpMenuEx, setMenu, PopUpMenuEx.Show,
        Option.some.injEq] at hp
      rw [← hp]
      simp [List.map_map, Function.comp_def]
    rw [hp2, List.mem_map] at hmem
    obtain ⟨o, ho, heq⟩ := hmem
    have hact : it.Action = o := by
      injection heq with h1 _
      rw [← h1]
    have := updateSelected_SelectionOk s (.real it.Action) h (Or.inr ⟨o, ho, by rw [hact]⟩)
    exact this

/-- C9, at an example: from the control with Green selected, the left-arrow key keeps the
selection inside the options. -/
theorem C9_selection_invariant_witness :
    ((colourSelect (some (.real ⟨1, "Green", "g"⟩)) (some (openCell "g"))).TypedKey
      .left).SelectionOk :=
  (C9_selection_invariant (colourSelect (some (.real ⟨1, "Green", "g"⟩)) (some (openCell "g")))
    (Or.inr (Or.inr ⟨⟨1, "Green", "g"⟩, by decide, rfl⟩))).2.2.2.2.1 .left

/-! ## C10: Selected is never nil -/

/-- C10 (as stated, refuted): immediately after `NewSelectEx`, `Selected` is nil, and a call of
`Selected.Label()`, such as the one `updateLabel` makes, fails on that state. -/
theorem C10_counterexample_after_construction :
    (NewSelectEx "(Select one)" colours "Pick a color" (some (openCell "")) 0 true).Selected
      = none ∧
    (updateLabel "(Select one)"
      (NewSelectEx "(Select one)" colours "Pick a color" (some (openCell "")) 0 true)).isSome
      = false := by
  decide

/-- C10 (amended): immediately after `NewSelectEx`, `Selected` is nil.  `CreateRenderer` succeeds
on every state; it installs the sentinel when `Selected` is nil and keeps a non-nil `Selected`.
In every state reached from `NewSelectEx` by any operations, then `CreateRenderer`, then any
further operations, `Selected` holds the sentinel or a real option, and `updateLabel`, which calls
`Selected.Label()`, succeeds. -/
theorem C10_selected_set_once_rendered (dflt : String) (options : List Opt)
    (placeHolder : String) (binder : Option Binder) (searchBoxHeight : Int) (changed : Bool)
    (before after : List Op) :
    (NewSelectEx dflt options placeHolder binder searchBoxHeight changed).Selected = none ∧
    (∀ s : SelectEx, ∃ r, s.CreateRenderer dflt = some r ∧
      (s.Selected = none → r.1.Selected = some .unSelect) ∧
      (∀ sel, s.Selected = some sel → r.1.Selected = some sel)) ∧
    (∃ r sel,
      ((NewSelectEx dflt options placeHolder binder searchBoxHeight changed).run dflt
        before).CreateRenderer dflt = some r ∧
      (r.1.run dflt after).Selected = some sel ∧
      (sel = .unSelect ∨ ∃ o, sel = .real o) ∧
      (updateLabel dflt (r.1.run dflt after)).isSome = true) := by
  refine ⟨rfl, ?_, ?_⟩
  · intro s
    obtain ⟨r, hr, _, hsel⟩ := CreateRenderer_total dflt s
    refine ⟨r, hr, ?_, ?_⟩
    · intro hnone
      rw [hsel, hnone]
      rfl
    · intro sel hsome
      rw [hsel, hsome]
      rfl
  · obtain ⟨r, hr, hsome, _⟩ := CreateRenderer_total dflt
      ((NewSelectEx dflt options placeHolder binder searchBoxHeight changed).run dflt before)
    have hrun := run_isSome dflt after r.1 hsome
    obtain ⟨sel, hsel⟩ := Option.isSome_iff_exists.mp hrun
    refine ⟨r, sel, hr, hsel, ?_, ?_⟩
    · cases sel with
      | unSelect => exact Or.inl rfl
      | real o => exact Or.inr ⟨o, rfl⟩
    · unfold updateLabel
      by_cases hp : ((r.1.run dflt after).PlaceHolder == "") = true <;>
        by_cases hl : (sel.Label == "") = true <;> simp [hp, hsel, hl]

/-- C10 (amended), at an example: on the fresh control over the three colours, whose `Selected`
is nil, `CreateRenderer` succeeds and leaves the sentinel in `Selected`. -/
theorem C10_selected_set_once_rendered_witness :
    (NewSelectEx "(Select one)" colours "Pick a color" (some (openCell "")) 0 true).Selected
      = none ∧
    ∃ r, (NewSelectEx "(Select one)" colours "Pick a color" (some (openCell "")) 0
        true).CreateRenderer "(Select one)" = some r ∧
      r.1.Selected = some .unSelect := by
  have h := C10_selected_set_once_rendered "(Select one)" colours "Pick a color"
    (some (openCell "")) 0 true [] []
  refine ⟨h.1, ?_⟩
  obtain ⟨r, hr, hnil, _⟩ :=
    h.2.1 (NewSelectEx "(Select one)" colours "Pick a color" (some (openCell "")) 0 true)
  exact ⟨r, hr, hnil rfl⟩

end Widget
